import Mathlib

/-!
# Verification of the videojs low-latency DASH segment-loading engine

Shallow embedding of `src/http-streaming/src/audio-segment-fetch.js` and
`src/http-streaming/src/segment-loader.js`, together with proofs about the
spec's testable properties.

Byte buffers (`Uint8Array` / `ArrayBuffer`) are modelled as `List ℕ`, where
every entry is a byte value (< 256).  Out-of-range reads in JavaScript yield
`undefined`, which under `>>> 0` / `<<` coercions behaves as `0`; this is
mirrored by `List.getD _ _ 0`.  Media times (seconds) are modelled as `ℚ`,
timeline ids as `ℤ`.
-/

namespace LLDash

/-! ## Incremental Container Scanner (`audio-segment-fetch.js`)

`parseUint32(data, offset)` reads a 4-byte big-endian unsigned integer.
For byte values (< 256) the JavaScript 32-bit shift/or arithmetic is exact,
so the plain sum below is a faithful translation. -/
def parseUint32 (data : List ℕ) (offset : ℕ) : ℕ :=
  data.getD (offset + 3) 0 +
    data.getD (offset + 2) 0 * 2 ^ 8 +
    data.getD (offset + 1) 0 * 2 ^ 16 +
    data.getD offset 0 * 2 ^ 24

/-- A 4-character ISO box type, represented by its four character codes
(the JS code builds a 4-character string with `String.fromCharCode`;
the tuple of codes is an exact representation). -/
abbrev BoxType := ℕ × ℕ × ℕ × ℕ

/-- `parseIsoBoxType(data, offset)` reads the four type bytes. -/
def parseIsoBoxType (data : List ℕ) (offset : ℕ) : BoxType :=
  (data.getD offset 0, data.getD (offset + 1) 0,
    data.getD (offset + 2) 0, data.getD (offset + 3) 0)

/-- The `'mdat'` media-data box type (character codes of `m`, `d`, `a`, `t`). -/
def mdatType : BoxType := (109, 100, 97, 116)

/-- Result of the scanner: `new IsoBoxSearchInfo(lastCompletedOffset, found, size)`.
When `found` is `false` the JS leaves `size` as `undefined`; it is never read
in that case, and is modelled as `0`. -/
structure IsoBoxSearchInfo where
  lastCompletedOffset : ℕ
  found : Bool
  size : ℕ
  deriving Repr, DecidableEq

/-- The `while (offset < data.byteLength)` loop of `findLastTopIsoBoxCompleted`.
State: current `offset`, the running `lastCompletedOffset`, and `boxInfo`
(`some (boxOffset, boxSize)` once a complete box of an interesting type has
been seen).  Each iteration either breaks (`boxSize === 0`) or advances
`offset` by `boxSize ≥ 1`, so at most `data.length − offset` iterations can
run; `fuel` is a structural bound on the iteration count, and any
`fuel ≥ data.length − offset` yields the loop's result (the stabilization
theorem below proves this, which is the termination argument for the JS
loop). -/
def scanLoop (types : List BoxType) (data : List ℕ) :
    ℕ → ℕ → ℕ → Option (ℕ × ℕ) → ℕ × Option (ℕ × ℕ)
  | 0, _, lastCompletedOffset, boxInfo => (lastCompletedOffset, boxInfo)
  | fuel + 1, offset, lastCompletedOffset, boxInfo =>
    if offset < data.length then
      let boxSize := parseUint32 data offset
      let boxType := parseIsoBoxType data (offset + 4)
      if boxSize = 0 then
        (lastCompletedOffset, boxInfo)
      else
        if offset + boxSize ≤ data.length then
          if boxType ∈ types then
            scanLoop types data fuel (offset + boxSize) lastCompletedOffset
              (some (offset, boxSize))
          else
            scanLoop types data fuel (offset + boxSize) (offset + boxSize) boxInfo
        else
          scanLoop types data fuel (offset + boxSize) lastCompletedOffset boxInfo
    else
      (lastCompletedOffset, boxInfo)

/-- `findLastTopIsoBoxCompleted(types, buffer, offset)`: walks top-level ISO
boxes from `offset`; reports the offset up to which all boxes are fully
received and whether (and where) a complete box of an interesting type is
present.  The loop is run with fuel `buffer.length`, which always suffices
(each iteration advances the offset by at least one).  The
`offset === undefined` default does not arise (the transport always passes
an offset), and `buffer` is always non-null here. -/
def findLastTopIsoBoxCompleted (types : List BoxType) (buffer : List ℕ)
    (offset : ℕ) : IsoBoxSearchInfo :=
  if offset + 8 ≥ buffer.length then
    ⟨0, false, 0⟩
  else
    match scanLoop types buffer buffer.length offset 0 none with
    | (lastCompletedOffset, none) => ⟨lastCompletedOffset, false, 0⟩
    | (_, some (boxOffset, boxSize)) => ⟨boxOffset, true, boxSize⟩

/-! ## Chunked Fragment Transport (`audio-segment-fetch.js`)

The transport's callbacks (`trackInfoFn`, `timingInfoFn`, `dataFn`, `chunkFn`,
`doneFn`) are modelled as emitted events.  The probe payloads (`mp4probe`
results) are external library output and are not needed by any claim, so the
events record only which callback fired (and, for chunks, the bytes and the
first-chunk flag). -/

/-- Media type of a track / emitted chunk. -/
inductive MediaType where
  | audio
  | video
  deriving Repr, DecidableEq

/-- `segment.map.tracks`: which tracks the initialization section declared
(only presence matters for the control flow of `handleSegmentBytes`). -/
structure SegmentMap where
  hasAudioTrack : Bool
  hasVideoTrack : Bool
  deriving Repr, DecidableEq

/-- The segment object as used by the fetch module (`segment.map.tracks`). -/
structure FetchSegment where
  map : SegmentMap
  deriving Repr, DecidableEq

/-- One observable callback invocation of the fetch pipeline. -/
inductive FetchEvent where
  /-- `trackInfoFn(segment, trackInfo)` -/
  | trackInfoEv
  /-- `timingInfoFn(segment, mediaType, 'start', timingInfo)` -/
  | timingInfoEv (mediaType : MediaType)
  /-- `chunkFn(segment, {data, type}, firstChunkFlag)` -/
  | chunkEv (data : List ℕ) (firstChunkFlag : Bool)
  /-- `dataFn(segment, {data, type})` -/
  | dataEv (data : List ℕ)
  /-- `doneFn(null, segment, {})` -/
  | doneEv
  deriving Repr, DecidableEq

/-- `handleSegmentBytes`: invoked with the accumulated/sliced bytes.  Takes and
returns the module-level mutable flag `segmentTrackAndTimingInfoHandled`.
Note that the `if (!segmentTrackAndTimingInfoHandled)` guard around the
track/timing emission is commented out in the source, so track info and timing
info are emitted on every invocation with non-empty bytes before the segment
is done (the flag is still written, and still gates the `dataFn` path). -/
def handleSegmentBytes (handled : Bool) (segment : FetchSegment)
    (bytes : List ℕ) (segmentDone : Bool) (firstChunkFlag : Bool) :
    Bool × List FetchEvent :=
  let tracks := segment.map
  if bytes.length ≠ 0 ∧ ¬segmentDone then
    let isMuxed := tracks.hasVideoTrack && tracks.hasAudioTrack
    let audioTimingEvents :=
      if tracks.hasAudioTrack && !isMuxed then [FetchEvent.timingInfoEv .audio]
      else []
    let videoTimingEvents :=
      if tracks.hasVideoTrack then [FetchEvent.timingInfoEv .video] else []
    (true,
      FetchEvent.trackInfoEv ::
        (audioTimingEvents ++ videoTimingEvents ++
          [FetchEvent.chunkEv bytes firstChunkFlag]))
  else if handled then
    (handled, [FetchEvent.dataEv bytes, FetchEvent.doneEv])
  else
    (handled, [])

/-- `waitForCompletion`: appending only starts after both the init segment (if
required) and the first media chunk have been received.
`firstChunkReceived` models `firstChunkReceiveTime > 0`. -/
def waitForCompletion (handled : Bool) (segment : FetchSegment)
    (responseBuffer : List ℕ) (segmentDone needInit initRcvd : Bool)
    (firstChunkReceived firstChunkFlag : Bool) : Bool × List FetchEvent :=
  if firstChunkReceived ∧ ((needInit ∧ initRcvd) ∨ ¬needInit) then
    handleSegmentBytes handled segment responseBuffer segmentDone firstChunkFlag
  else
    (handled, [])

/-- `handleMediaDataResponse`: the container-type sniff at its head is a no-op
(the `type !== 'mp4'` early return is commented out), so behaviourally this is
`waitForCompletion`. -/
def handleMediaDataResponse (handled : Bool) (segment : FetchSegment)
    (responseBuffer : List ℕ) (segmentDone needInit initRcvd : Bool)
    (firstChunkReceived firstChunkFlag : Bool) : Bool × List FetchEvent :=
  waitForCompletion handled segment responseBuffer segmentDone needInit initRcvd
    firstChunkReceived firstChunkFlag

/-- `concatTypedArray(remaining, data)`. -/
def concatTypedArray (remaining data : List ℕ) : List ℕ :=
  if remaining.length = 0 then data else remaining ++ data

/-- Mutable state of one streaming fetch (`audioSegmentFetch` closure plus the
module-level `segmentTrackAndTimingInfoHandled` flag). -/
structure FetchState where
  /-- unconsumed trailing bytes (`remaining`) -/
  remaining : List ℕ
  /-- resume offset for the scanner (`offset`) -/
  offset : ℕ
  /-- `firstChunkReceiveTime > 0` -/
  firstChunkReceived : Bool
  /-- `firstChunkFlag` -/
  firstChunkFlag : Bool
  /-- `segmentDone` -/
  segmentDone : Bool
  /-- `segmentTrackAndTimingInfoHandled` -/
  handled : Bool
  deriving Repr, DecidableEq

/-- State at the start of `audioSegmentFetch` (which also resets the
module-level flag). -/
def initialFetchState : FetchState :=
  { remaining := [], offset := 0, firstChunkReceived := false,
    firstChunkFlag := false, segmentDone := false, handled := false }

/-- One invocation of `processMediaSegmentData` with a reader result:
`some value` for `{value, done: false}`, `none` for `{done: true}`.
`needInit` / `initRcvd` are the flags of the enclosing fetch (the init
response, when one is pending, can only flip `initRcvd` between reader
callbacks; a run with a given constant pair covers each such interleaving
phase).

In the source, when a target box is complete the slice is taken with
`subarray(0, end)` / `subarray(end)` (or the whole array when `end` equals its
length), which is exactly `take end` / `drop end`.  The sliced `data.buffer`
passed on is a fresh copy equal to the slice.  On the `done` path the source
passes `remaining.buffer`, which may alias a larger underlying buffer; only
the `dataFn` payload (never a chunk) is affected, and `handleSegmentBytes`
ignores that payload's length when `segmentDone` is set, so the event is
modelled as carrying the `remaining` view's contents. -/
def processMediaSegmentData (segment : FetchSegment) (needInit initRcvd : Bool)
    (st : FetchState) (read : Option (List ℕ)) : FetchState × List FetchEvent :=
  match read with
  | none =>
      -- `done` branch: `segmentDone = true`, and `remaining` (a Uint8Array
      -- object, hence always truthy) is flushed to `handleMediaDataResponse`.
      let result := handleMediaDataResponse st.handled segment st.remaining
        true needInit initRcvd st.firstChunkReceived st.firstChunkFlag
      ({ st with segmentDone := true, handled := result.1 }, result.2)
  | some value =>
      if value.length > 0 then
        let remaining := concatTypedArray st.remaining value
        let boxesInfo := findLastTopIsoBoxCompleted [mdatType] remaining st.offset
        if boxesInfo.found then
          let e := boxesInfo.lastCompletedOffset + boxesInfo.size
          let data := remaining.take e
          let remaining' := remaining.drop e
          -- `segmentDone = false`; first-chunk bookkeeping
          let firstChunkFlag := !st.firstChunkReceived
          let result := handleMediaDataResponse st.handled segment data
            false needInit initRcvd true firstChunkFlag
          ({ remaining := remaining', offset := 0, firstChunkReceived := true,
             firstChunkFlag := firstChunkFlag, segmentDone := false,
             handled := result.1 }, result.2)
        else
          ({ st with remaining := remaining,
                     offset := boxesInfo.lastCompletedOffset }, [])
      else
        (st, [])

/-- Runs the reader loop over a list of reader results, concatenating the
emitted events. -/
def runFetchSteps (segment : FetchSegment) (needInit initRcvd : Bool) :
    FetchState → List (Option (List ℕ)) → FetchState × List FetchEvent
  | st, [] => (st, [])
  | st, read :: reads =>
      let step := processMediaSegmentData segment needInit initRcvd st read
      let rest := runFetchSteps segment needInit initRcvd step.1 reads
      (rest.1, step.2 ++ rest.2)

/-- The data payloads of the `chunkFn` invocations, in order. -/
def emittedChunks (events : List FetchEvent) : List (List ℕ) :=
  events.filterMap fun e =>
    match e with
    | .chunkEv data _ => some data
    | _ => none

/-- Number of `trackInfoFn` invocations. -/
def trackInfoCount (events : List FetchEvent) : ℕ :=
  events.countP fun e =>
    match e with
    | .trackInfoEv => true
    | _ => false

/-- Number of `timingInfoFn` invocations. -/
def timingInfoCount (events : List FetchEvent) : ℕ :=
  events.countP fun e =>
    match e with
    | .timingInfoEv _ => true
    | _ => false

/-- The bytes delivered by the network across a list of reader results. -/
def deliveredBytes (reads : List (Option (List ℕ))) : List ℕ :=
  (reads.filterMap id).flatten

/-- A complete ISO box of size `s` and type `mdat` sits at offset `o` of `l`. -/
def isCompleteMdatBoxAt (l : List ℕ) (o s : ℕ) : Prop :=
  parseUint32 l o = s ∧ parseIsoBoxType l (o + 4) = mdatType ∧
    o + s ≤ l.length ∧ s ≠ 0

/-- Starting from stream position `B` of the total byte stream `total`, each
chunk of `chunks` in turn ends exactly at the end boundary of a complete
`mdat` box of the stream (the box lying inside that chunk's span).  In
particular no chunk ever extends into a partially received trailing box. -/
def chunksEndAtMdat (total : List ℕ) : ℕ → List (List ℕ) → Prop
  | _, [] => True
  | B, c :: cs =>
      (∃ o s, isCompleteMdatBoxAt total o s ∧ B + c.length = o + s ∧ B ≤ o) ∧
        chunksEndAtMdat total (B + c.length) cs

/-- Modelled from the spec: "concatenating all emitted chunks reconstructs
exactly the bytes of the complete media-data boxes, in order".  This is the
spec's reading of the scanner's output: walk top-level boxes from `offset`
and collect the bytes of each complete `mdat` box (`fuel` is a structural
iteration bound; each step advances the offset by at least one, so
`l.length` suffices). -/
def specMdatBoxes (l : List ℕ) : ℕ → ℕ → List (List ℕ)
  | 0, _ => []
  | fuel + 1, offset =>
    if offset < l.length ∧ parseUint32 l offset ≠ 0 ∧
        offset + parseUint32 l offset ≤ l.length then
      let s := parseUint32 l offset
      let rest := specMdatBoxes l fuel (offset + s)
      if parseIsoBoxType l (offset + 4) = mdatType then
        ((l.drop offset).take s) :: rest
      else
        rest
    else
      []

/-- Modelled from the spec: the bytes of the complete media-data (`mdat`)
boxes of a byte stream, in order. -/
def specMdatBytes (l : List ℕ) : List ℕ :=
  (specMdatBoxes l l.length 0).flatten

/-! ## Timeline Change Coordinator (`segment-loader.js`) -/

/-- `('main'|'audio')` loader type. -/
inductive LoaderType where
  | main
  | audio
  deriving Repr, DecidableEq

/-- A `{from, to}` timeline transition (`from` is a Lean keyword, hence
`fromTl` / `toTl`). -/
structure TimelineChange where
  fromTl : ℤ
  toTl : ℤ
  deriving Repr, DecidableEq

/-- The per-loader-type records held by the timeline change controller:
the last (committed) and pending timeline changes of each loader type. -/
structure TimelineChangeController where
  lastMain : Option TimelineChange
  lastAudio : Option TimelineChange
  pendingMain : Option TimelineChange
  pendingAudio : Option TimelineChange
  deriving Repr, DecidableEq

/-- `timelineChangeController.lastTimelineChange({type})`. -/
def TimelineChangeController.lastTimelineChange
    (tcc : TimelineChangeController) : LoaderType → Option TimelineChange
  | .main => tcc.lastMain
  | .audio => tcc.lastAudio

/-- `timelineChangeController.pendingTimelineChange({type})`. -/
def TimelineChangeController.pendingTimelineChange
    (tcc : TimelineChangeController) : LoaderType → Option TimelineChange
  | .main => tcc.pendingMain
  | .audio => tcc.pendingAudio

/-- `shouldWaitForTimelineChange`: whether the loader must wait for a
timeline change from the controller before processing a segment from
`segmentTimeline` while currently on `currentTimeline`. -/
def shouldWaitForTimelineChange (tcc : TimelineChangeController)
    (currentTimeline segmentTimeline : ℤ) (loaderType : LoaderType)
    (audioDisabled : Bool) : Bool :=
  if currentTimeline = segmentTimeline then
    false
  else if loaderType = .audio then
    -- wait if main has not had a timeline change, or has not yet changed
    -- to the timeline audio is looking to load
    match tcc.lastTimelineChange .main with
    | none => true
    | some lastMainTimelineChange => lastMainTimelineChange.toTl ≠ segmentTimeline
  else if loaderType = .main ∧ audioDisabled then
    match tcc.pendingTimelineChange .audio with
    | some pendingAudioTimelineChange =>
        pendingAudioTimelineChange.toTl ≠ segmentTimeline
    | none => true
  else
    false

/-! ## Segment Loader data model (`segment-loader.js`) -/

/-- Init-segment section (`map`): identified by its content-derived
`initSegmentId` (modelled as `id`), with optionally downloaded bytes. -/
structure InitMap where
  id : ℕ
  bytes : Option (List ℕ)
  deriving Repr, DecidableEq

/-- One playlist segment, with the attributes the loader reads: timeline id,
nominal duration, derived start/end once known, optional init section.
(The resolved URI and byte range are request plumbing not used by any claim.) -/
structure MediaSegment where
  timeline : ℤ
  duration : ℚ
  startTime : Option ℚ
  endTime : Option ℚ
  map : Option InitMap
  deriving Repr, DecidableEq

/-- A media playlist.  `uri` is its identity; `syncInfo` is the
`{mediaSequence, time}` pair the loader stamps onto a first playlist. -/
structure Playlist where
  uri : ℕ
  mediaSequence : ℤ
  targetDuration : Option ℚ
  segments : List MediaSegment
  syncInfo : Option (ℤ × ℚ)
  deriving Repr, DecidableEq

/-- `this.playlist_.targetDuration || 10`: JavaScript `||` replaces both a
missing and a zero target duration by the 10s default. -/
def Playlist.targetDurationOr10 (playlist : Playlist) : ℚ :=
  match playlist.targetDuration with
  | none => 10
  | some t => if t = 0 then 10 else t

/-- A `(segment index, presentation time)` sync point. -/
structure SyncPoint where
  segmentIndex : ℤ
  time : ℚ
  deriving Repr, DecidableEq

/-- Track info derived from a segment (`{hasAudio, hasVideo, isMuxed}`). -/
structure TrackInfo where
  hasAudio : Bool
  hasVideo : Bool
  isMuxed : Bool
  deriving Repr, DecidableEq

/-- The pending segment request (`this.pendingSegment_`), with the fields the
verified operations read or write.  Omitted JS fields (`requestId`, `uri`,
`bytes`, `encryptedBytes`, `transmuxer`, `audioAppendStart`,
`gopsToAlignWith`) are request plumbing not consulted by any claim.
`segment` is the referenced playlist segment; the live-window rebase may
store `undefined` there when the new index exceeds the refreshed playlist
(modelled as `none`).  `hasAbortRequests` records whether an in-flight
request (and thus `segmentInfo.abortRequests`) has been attached. -/
structure SegmentInfo where
  mediaIndex : ℤ
  isSyncRequest : Bool
  startOfSegment : Option ℚ
  playlist : Playlist
  timestampOffset : Option ℚ
  timeline : ℤ
  duration : ℚ
  segment : Option MediaSegment
  byteLength : ℕ
  isFmp4 : Bool
  changedTimestampOffset : Bool
  hasAbortRequests : Bool
  audioInitDataAppended : Bool
  videoInitDataAppended : Bool
  segmentInfoInitDataApplied : Bool
  deriving Repr, DecidableEq

/-- Loader states. -/
inductive SLState where
  | INIT
  | READY
  | WAITING
  | APPENDING
  | DISPOSED
  deriving Repr, DecidableEq

/-- The mutable fields of a `SegmentLoader` touched by the verified
operations.  Queued closures (call/load/metadata queues) are modelled as
opaque tokens, since the claims only concern whether the queues are dropped.
`checkBufferTimeoutActive` models `this.checkBufferTimeout_ !== null`
(so `paused()` is its negation). -/
structure SegmentLoaderState where
  state : SLState
  loaderType_ : LoaderType
  playlist_ : Option Playlist
  pendingSegment_ : Option SegmentInfo
  mediaIndex : Option ℤ
  syncPoint_ : Option SyncPoint
  isPendingTimestampOffset_ : Bool
  callQueue_ : List ℕ
  loadQueue_ : List ℕ
  metadataQueueId3 : List ℕ
  metadataQueueCaption : List ℕ
  handlePartialData_ : Bool
  currentMediaInfo_ : Option TrackInfo
  fetchAtBuffer_ : Bool
  checkBufferTimeoutActive : Bool
  currentTimeline_ : ℤ
  audioDisabled_ : Bool
  ended_ : Bool
  appendInitSegmentAudio : Bool
  appendInitSegmentVideo : Bool
  playlistOfLastInitSegmentAudio : Option Playlist
  playlistOfLastInitSegmentVideo : Option Playlist
  activeInitSegmentId_ : Option ℕ
  initSegments_ : List (ℕ × List ℕ)

/-- Externally observable side effects of loader operations.  The
`statechange` trigger that accompanies every `state` assignment is implied by
the state fields and not tracked separately. -/
inductive LoaderEffect where
  /-- `this.trigger(name)` -/
  | triggerEv (name : String)
  /-- `this.syncController_.saveExpiredSegmentInfo(oldPlaylist, newPlaylist)` -/
  | saveExpiredSegmentInfo (oldPlaylist newPlaylist : Playlist)
  /-- `this.pendingSegment_.abortRequests()` -/
  | abortRequestsCall
  /-- `this.timelineChangeController_.clearPendingTimelineChange(loaderType)` -/
  | clearPendingTimelineChange (loaderType : LoaderType)
  /-- `this.monitorBuffer_()` scheduled a buffer check -/
  | monitorBufferCall
  /-- `segmentTransmuxer.reset(...)` or `transmuxer_.postMessage({action})` -/
  | transmuxerMessage (action : String)
  /-- `this.remove(start, end)`; `none` is `Infinity` -/
  | removeCall (start : ℚ) (endTime : Option ℚ)
  deriving Repr, DecidableEq

/-- `paused()`: whether the buffer-check timeout is cleared. -/
def SegmentLoader.paused (st : SegmentLoaderState) : Bool :=
  !st.checkBufferTimeoutActive

/-- `couldBeginLoading_()`. -/
def SegmentLoader.couldBeginLoading_ (st : SegmentLoaderState) : Bool :=
  st.playlist_.isSome && !(SegmentLoader.paused st)

/-- `monitorBuffer_()`: (re-)schedules the buffer check. -/
def SegmentLoader.monitorBuffer_ (st : SegmentLoaderState) :
    SegmentLoaderState × List LoaderEffect :=
  ({ st with checkBufferTimeoutActive := true }, [LoaderEffect.monitorBufferCall])

/-- `abort_()`: aborts pending requests, clears the pending segment and all
queued continuations, and clears this loader's pending timeline change. -/
def SegmentLoader.abort_ (st : SegmentLoaderState) :
    SegmentLoaderState × List LoaderEffect :=
  let abortEffects :=
    match st.pendingSegment_ with
    | some pendingSegment =>
        if pendingSegment.hasAbortRequests then [LoaderEffect.abortRequestsCall]
        else []
    | none => []
  ({ st with
      pendingSegment_ := none, callQueue_ := [], loadQueue_ := [],
      metadataQueueId3 := [], metadataQueueCaption := [] },
    abortEffects ++ [LoaderEffect.clearPendingTimelineChange st.loaderType_])

/-- `abort()`: outside `WAITING` only drops the pending segment; in
`WAITING`, runs `abort_()`, resets the state to `READY`, and (when not
paused) immediately re-arms the buffer check. -/
def SegmentLoader.abort (st : SegmentLoaderState) :
    SegmentLoaderState × List LoaderEffect :=
  if st.state ≠ SLState.WAITING then
    ({ st with pendingSegment_ := none }, [])
  else
    let r := SegmentLoader.abort_ st
    let st1 := { r.1 with state := SLState.READY }
    if !(SegmentLoader.paused st1) then
      let m := SegmentLoader.monitorBuffer_ st1
      (m.1, r.2 ++ m.2)
    else
      (st1, r.2)

/-- `resyncLoader()`. -/
def SegmentLoader.resyncLoader (st : SegmentLoaderState) :
    SegmentLoaderState × List LoaderEffect :=
  let st1 := { st with
    mediaIndex := none, syncPoint_ := none,
    isPendingTimestampOffset_ := false, callQueue_ := [], loadQueue_ := [],
    metadataQueueId3 := [], metadataQueueCaption := [] }
  let r := SegmentLoader.abort st1
  (r.1,
    LoaderEffect.transmuxerMessage "reset" ::
      r.2 ++ [LoaderEffect.transmuxerMessage "clearParsedMp4Captions"])

/-- `resetLoader()`. -/
def SegmentLoader.resetLoader (st : SegmentLoaderState) :
    SegmentLoaderState × List LoaderEffect :=
  SegmentLoader.resyncLoader { st with fetchAtBuffer_ := false }

/-- `resetEverything()`: the `remove(0, Infinity)` sink interaction is
recorded as an effect (its internals involve only the external sink). -/
def SegmentLoader.resetEverything (st : SegmentLoaderState) :
    SegmentLoaderState × List LoaderEffect :=
  let st1 := { st with
    ended_ := false, appendInitSegmentAudio := true,
    appendInitSegmentVideo := true }
  let r := SegmentLoader.resetLoader st1
  (r.1, r.2 ++ [LoaderEffect.removeCall 0 none,
    LoaderEffect.transmuxerMessage "clearAllMp4Captions"])

/-- `init_()`. -/
def SegmentLoader.init_ (st : SegmentLoaderState) :
    SegmentLoaderState × List LoaderEffect :=
  let st1 := { st with state := SLState.READY }
  let r := SegmentLoader.resetEverything st1
  let m := SegmentLoader.monitorBuffer_ r.1
  (m.1, r.2 ++ m.2)

/-- `playlist(newPlaylist)`: sets a (possibly refreshed) playlist on the
loader.  (`options` only populates `xhrOptions_`, which no claim reads.)
On an identity change (different `uri`) the loader resyncs; on a same-`uri`
refresh it rebases the local and in-flight media indices by the
media-sequence delta and forwards expired-segment info to the sync
controller. -/
def SegmentLoader.playlist (st0 : SegmentLoaderState)
    (newPlaylistArg : Option Playlist) : SegmentLoaderState × List LoaderEffect :=
  match newPlaylistArg with
  | none => (st0, [])
  | some newPlaylist0 =>
      let oldPlaylist := st0.playlist_
      let segmentInfo := st0.pendingSegment_
      -- when playback has not started, stamp sync info onto the new playlist
      let newPlaylist :=
        if st0.state = SLState.INIT then
          { newPlaylist0 with syncInfo := some (newPlaylist0.mediaSequence, 0) }
        else newPlaylist0
      let st := { st0 with playlist_ := some newPlaylist }
      let effects := [LoaderEffect.triggerEv "syncinfoupdate"]
      if st.state = SLState.INIT ∧ SegmentLoader.couldBeginLoading_ st then
        let r := SegmentLoader.init_ st
        (r.1, effects ++ r.2)
      else
        match oldPlaylist with
        | none =>
            -- no old playlist: rendition-switch branch with `mediaIndex`
            -- necessarily null (nothing was loaded yet)
            let r :=
              if st.mediaIndex ≠ none ∨ st.handlePartialData_ then
                SegmentLoader.resyncLoader st
              else (st, [])
            ({ r.1 with currentMediaInfo_ := none },
              effects ++ r.2 ++ [LoaderEffect.triggerEv "playlistupdate"])
        | some old =>
            if old.uri ≠ newPlaylist.uri then
              let r :=
                if st.mediaIndex ≠ none ∨ st.handlePartialData_ then
                  SegmentLoader.resyncLoader st
                else (st, [])
              ({ r.1 with currentMediaInfo_ := none },
                effects ++ r.2 ++ [LoaderEffect.triggerEv "playlistupdate"])
            else
              -- same uri refreshed: live window shift
              let mediaSequenceDiff := newPlaylist.mediaSequence - old.mediaSequence
              let rebase := fun (si : SegmentInfo) =>
                let si := { si with mediaIndex := si.mediaIndex - mediaSequenceDiff }
                if 0 ≤ si.mediaIndex then
                  { si with segment := newPlaylist.segments.get? si.mediaIndex.toNat }
                else si
              let st := { st with
                mediaIndex := st.mediaIndex.map (· - mediaSequenceDiff),
                pendingSegment_ := segmentInfo.map rebase }
              (st, effects ++ [LoaderEffect.saveExpiredSegmentInfo old newPlaylist])

/-! ## Back-buffer trimming -/

/-- `Config.BACK_BUFFER_LENGTH`.  Modelled from the spec: `config.js` is not
part of the sources under verification; §6 lists the back-buffer length as
configuration, with the upstream default of 30 seconds. -/
def BACK_BUFFER_LENGTH : ℚ := 30

/-- `safeBackBufferTrimTime(seekable, currentTime, targetDuration)`: time
safe to remove from the back buffer.  `seekable` is a list of time ranges;
`backBufferLength` is `Config.BACK_BUFFER_LENGTH`, kept as a parameter. -/
def safeBackBufferTrimTime (seekable : List (ℚ × ℚ)) (currentTime : ℚ)
    (targetDuration : ℚ) (backBufferLength : ℚ) : ℚ :=
  let trimTime := currentTime - backBufferLength
  let trimTime :=
    match seekable with
    | [] => trimTime
    | r :: _ => max trimTime r.1
  let maxTrimTime := currentTime - targetDuration
  min maxTrimTime trimTime

/-- `trimBackBuffer_`: the time up to which the back buffer is removed before
a request (`remove(0, removeToTime)` fires only when it is positive). -/
def trimBackBufferRemoveToTime (seekable : List (ℚ × ℚ)) (currentTime : ℚ)
    (playlist : Playlist) : ℚ :=
  safeBackBufferTrimTime seekable currentTime playlist.targetDurationOr10
    BACK_BUFFER_LENGTH

/-! ## Throughput statistics -/

/-- `this.throughput = {rate, count}`. -/
structure Throughput where
  rate : ℚ
  count : ℕ
  deriving Repr, DecidableEq

/-- `recordThroughput_(segmentInfo)`: cumulative moving average of the
append-pipeline byte rate.  `now` is `Date.now()`;
`endOfAllRequests` and `byteLength` are the fields read off `segmentInfo`.
One is added to the elapsed time to avoid division by zero. -/
def recordThroughput_ (throughput : Throughput) (now : ℚ)
    (byteLength : ℕ) (endOfAllRequests : ℚ) : Throughput :=
  let rate := throughput.rate
  let segmentProcessingTime := now - endOfAllRequests + 1
  let segmentProcessingThroughput : ℤ :=
    ⌊((byteLength : ℚ) / segmentProcessingTime) * 8 * 1000⌋
  let count := throughput.count + 1
  { rate := rate + ((segmentProcessingThroughput : ℚ) - rate) / (count : ℚ),
    count := count }

/-! ## Buffer check (`checkBuffer_` and friends) -/

/-- `MediaSource.readyState`. -/
inductive ReadyState where
  | closed
  | open
  | ended
  deriving Repr, DecidableEq

/-- The parts of `this` that `checkBuffer_` reads besides its arguments.
`getMediaInfoForTime` is the external `Playlist.getMediaInfoForTime`
(sync-controller collaborator, §6): it resolves a playback time to a
`(mediaIndex, startTime)` pair. -/
structure CheckBufferCtx where
  goalBufferLength : ℚ
  currentTimeline_ : ℤ
  fetchAtBuffer_ : Bool
  mediaSourceReadyState : ReadyState
  seeking : Bool
  getMediaInfoForTime : Playlist → ℚ → ℤ → ℚ → ℤ × ℚ

/-- `getSyncSegmentCandidate_(playlist)`: a conservative same-timeline
segment index used for a sync probe. -/
def getSyncSegmentCandidate_ (currentTimeline : ℤ) (playlist : Playlist) : ℤ :=
  if currentTimeline = -1 then 0
  else
    let segmentIndexArray :=
      (playlist.segments.enum.filter fun p => p.2.timeline = currentTimeline).map
        fun p => (p.1 : ℤ)
    if segmentIndexArray.length ≠ 0 then
      segmentIndexArray.getD (min (segmentIndexArray.length - 1) 1) 0
    else
      max ((playlist.segments.length : ℤ) - 1) 0

/-- `generateSegmentInfo_(playlist, mediaIndex, startOfSegment, isSyncRequest)`.
The omitted JS fields (`requestId`, `uri`, `bytes`, `encryptedBytes`,
`transmuxer`, `audioAppendStart`, `gopsToAlignWith`) are request plumbing not
consulted by any claim. -/
def generateSegmentInfo_ (playlist : Playlist) (mediaIndex : ℤ)
    (startOfSegment : Option ℚ) (isSyncRequest : Bool) : Option SegmentInfo :=
  if mediaIndex < 0 ∨ (playlist.segments.length : ℤ) ≤ mediaIndex then none
  else
    match playlist.segments.get? mediaIndex.toNat with
    | none => none
    | some segment =>
        some {
          mediaIndex := mediaIndex
          isSyncRequest := isSyncRequest
          startOfSegment := startOfSegment
          playlist := playlist
          timestampOffset := none
          timeline := segment.timeline
          duration := segment.duration
          segment := some segment
          byteLength := 0
          isFmp4 := false
          changedTimestampOffset := false
          hasAbortRequests := false
          audioInitDataAppended := false
          videoInitDataAppended := false
          segmentInfoInitDataApplied := false }

/-- `checkBuffer_(buffered, playlist, currentMediaIndex, hasPlayed,
currentTime, syncPoint)`: decides the next segment request.  NOTE: the
goal-buffer-length early return is commented out in the source
(`//return null; // BoZ: tmp`), so a full buffer no longer goes idle; the
branch only logs.  The final ended-playlist guard reads `this.playlist_`,
which `fillBuffer_` passes as the `playlist` argument. -/
def checkBuffer_ (ctx : CheckBufferCtx) (buffered : List (ℚ × ℚ))
    (playlist : Playlist) (currentMediaIndex : Option ℤ) (hasPlayed : Bool)
    (currentTime : ℚ) (syncPoint : Option SyncPoint) : Option SegmentInfo :=
  let lastBufferedEnd :=
    match buffered.getLast? with
    | some r => r.2
    | none => 0
  let bufferedTime := max 0 (lastBufferedEnd - currentTime)
  if playlist.segments.length = 0 then none
  else if ¬hasPlayed ∧ 1 ≤ bufferedTime then none
  else
    let next : ℤ × Option ℚ × Bool :=
      match syncPoint with
      | none =>
          (getSyncSegmentCandidate_ ctx.currentTimeline_ playlist, none, true)
      | some syncPoint =>
          match currentMediaIndex with
          | some currentMediaIndex =>
              -- walk forward; `segment.end` of value 0 is falsy in JS
              let segmentAtIndex :=
                if 0 ≤ currentMediaIndex then
                  playlist.segments.get? currentMediaIndex.toNat
                else none
              let startOfSegment :=
                match segmentAtIndex with
                | some segment =>
                    match segment.endTime with
                    | some e => if e = 0 then lastBufferedEnd else e
                    | none => lastBufferedEnd
                | none => lastBufferedEnd
              (currentMediaIndex + 1, some startOfSegment, false)
          | none =>
              if ctx.fetchAtBuffer_ then
                let mediaSourceInfo := ctx.getMediaInfoForTime playlist
                  lastBufferedEnd syncPoint.segmentIndex syncPoint.time
                (mediaSourceInfo.1, some mediaSourceInfo.2, false)
              else
                let mediaSourceInfo := ctx.getMediaInfoForTime playlist
                  currentTime syncPoint.segmentIndex syncPoint.time
                (mediaSourceInfo.1, some mediaSourceInfo.2, false)
    match generateSegmentInfo_ playlist next.1 next.2.1 next.2.2 with
    | none => none
    | some segmentInfo =>
        if ctx.mediaSourceReadyState = ReadyState.ended ∧
            segmentInfo.mediaIndex = (playlist.segments.length : ℤ) - 1 ∧
            ¬ctx.seeking then
          none
        else
          some segmentInfo

/-! ## Init-segment handling on append -/

/-- `updateAppendInitSegmentStatus(segmentInfo, type)`. -/
def updateAppendInitSegmentStatus (st : SegmentLoaderState)
    (segmentInfo : SegmentInfo) (type : MediaType) : SegmentLoaderState :=
  let st :=
    if st.loaderType_ = LoaderType.main ∧ segmentInfo.timestampOffset ≠ none ∧
        ¬segmentInfo.changedTimestampOffset then
      { st with appendInitSegmentAudio := true, appendInitSegmentVideo := true }
    else st
  let playlistOfLast :=
    match type with
    | .audio => st.playlistOfLastInitSegmentAudio
    | .video => st.playlistOfLastInitSegmentVideo
  if playlistOfLast ≠ some segmentInfo.playlist then
    match type with
    | .audio => { st with appendInitSegmentAudio := true }
    | .video => { st with appendInitSegmentVideo := true }
  else st

/-- `initSegmentForMap(map, set)`: cache lookup/insert for init-segment
bytes, keyed by the content-derived `initSegmentId` (modelled as `map.id`;
the JS compares object identity of cached entries, which the value-level
cache mirrors). -/
def initSegmentForMap (st : SegmentLoaderState) (map : Option InitMap)
    (set : Bool) : SegmentLoaderState × Option InitMap :=
  match map with
  | none => (st, none)
  | some map =>
      match st.initSegments_.lookup map.id with
      | some storedBytes => (st, some { id := map.id, bytes := some storedBytes })
      | none =>
          match map.bytes with
          | some bytes =>
              if set then
                ({ st with initSegments_ := (map.id, bytes) :: st.initSegments_ },
                  some map)
              else (st, some map)
          | none => (st, some map)

/-- `getInitSegmentAndUpdateState_({type, initSegment, map, playlist})`:
returns the init-segment bytes to prepend, or `none`. -/
def getInitSegmentAndUpdateState_ (st : SegmentLoaderState) (type : MediaType)
    (initSegmentArg : Option (List ℕ)) (map : Option InitMap)
    (playlist : Playlist) : SegmentLoaderState × Option (List ℕ) :=
  let afterMap : Option (SegmentLoaderState × Option (List ℕ)) :=
    match map with
    | some m =>
        if st.activeInitSegmentId_ = some m.id then
          -- don't need to re-append the init segment if the ID matches
          none
        else
          let r := initSegmentForMap st (some m) true
          some ({ r.1 with activeInitSegmentId_ := some m.id },
            r.2.bind (·.bytes))
    | none => some (st, initSegmentArg)
  match afterMap with
  | none => (st, none)
  | some (st, initSegment) =>
      match initSegment with
      | some initSegmentBytes =>
          let appendInit :=
            match type with
            | .audio => st.appendInitSegmentAudio
            | .video => st.appendInitSegmentVideo
          if appendInit then
            let st :=
              match type with
              | .audio => { st with
                  playlistOfLastInitSegmentAudio := some playlist,
                  appendInitSegmentAudio := map.isSome }
              | .video => { st with
                  playlistOfLastInitSegmentVideo := some playlist,
                  appendInitSegmentVideo := map.isSome }
            ({ st with activeInitSegmentId_ := none }, some initSegmentBytes)
          else (st, none)
      | none => (st, none)

/-- The bytes handed to the Media Buffer Sink by one
`sourceUpdater_.appendBuffer` call, and whether init bytes were prefixed. -/
structure AppendCall where
  type : MediaType
  bytes : List ℕ
  initIncluded : Bool
  deriving Repr, DecidableEq

/-- `appendToSourceBuffer_({segmentInfo, type, initSegment, data})`:
low-latency variant — the init segment is prepended at most once per
segment request and track type, guarded by the
`audioInitDataAppended`/`videoInitDataAppended` flags on `segmentInfo`. -/
def appendToSourceBuffer_ (segmentInfo : SegmentInfo) (type : MediaType)
    (initSegment : Option (List ℕ)) (data : List ℕ) :
    SegmentInfo × AppendCall :=
  match initSegment with
  | some initSegmentBytes =>
      if type = MediaType.video ∧ ¬segmentInfo.videoInitDataAppended then
        ({ segmentInfo with videoInitDataAppended := true },
          { type := type, bytes := initSegmentBytes ++ data, initIncluded := true })
      else if type = MediaType.audio ∧ ¬segmentInfo.audioInitDataAppended then
        ({ segmentInfo with audioInitDataAppended := true },
          { type := type, bytes := initSegmentBytes ++ data, initIncluded := true })
      else
        (segmentInfo, { type := type, bytes := data, initIncluded := false })
  | none => (segmentInfo, { type := type, bytes := data, initIncluded := false })

/-- `appendData_(segmentInfo, result, ...)`: glue from a transmuxed/parsed
result to the sink append; returns the sink call made, if any. -/
def appendData_ (st : SegmentLoaderState) (segmentInfo : SegmentInfo)
    (type : MediaType) (data : List ℕ) (resultInitSegment : Option (List ℕ)) :
    SegmentLoaderState × SegmentInfo × Option AppendCall :=
  if data.length = 0 then (st, segmentInfo, none)
  else if type = MediaType.audio ∧ st.audioDisabled_ then (st, segmentInfo, none)
  else
    let r := getInitSegmentAndUpdateState_ st type resultInitSegment
      (if segmentInfo.isFmp4 then segmentInfo.segment.bind (·.map) else none)
      segmentInfo.playlist
    let a := appendToSourceBuffer_ segmentInfo type r.2 data
    (r.1, a.1, some a.2)

/-- The per-request init-data-appended guard flag for a track type
(`audioInitDataAppended` / `videoInitDataAppended`). -/
def initDataAppendedFlag (type : MediaType) (segmentInfo : SegmentInfo) : Bool :=
  match type with
  | .audio => segmentInfo.audioInitDataAppended
  | .video => segmentInfo.videoInitDataAppended

/-- Folds a sequence of `appendToSourceBuffer_` calls for one track type over
one pending segment request, counting how many sink appends included the
init-segment bytes. -/
def countInitAppends (type : MediaType) :
    SegmentInfo → List (Option (List ℕ) × List ℕ) → ℕ
  | _, [] => 0
  | segmentInfo, (initSegment, data) :: rest =>
      let r := appendToSourceBuffer_ segmentInfo type initSegment data
      (if r.2.initIncluded then 1 else 0) + countInitAppends type r.1 rest

/-! ## Concrete sample values used by witnesses and counterexamples -/

/-- A freshly constructed loader in the `READY` state with a pending WAITING
request attached, used to instantiate theorems at concrete inputs. -/
def sampleSegment : MediaSegment :=
  { timeline := 0, duration := 6, startTime := none, endTime := none,
    map := some { id := 7, bytes := some [1, 2, 3] } }

/-- A concrete playlist (uri `0`, media sequence `5`). -/
def samplePlaylist : Playlist :=
  { uri := 0, mediaSequence := 5, targetDuration := some 6,
    segments := [sampleSegment, sampleSegment, sampleSegment], syncInfo := none }

/-- A concrete pending segment request over `samplePlaylist`. -/
def sampleSegmentInfo : SegmentInfo :=
  { mediaIndex := 1, isSyncRequest := false, startOfSegment := some 6,
    playlist := samplePlaylist, timestampOffset := none, timeline := 0,
    duration := 6, segment := some sampleSegment, byteLength := 0,
    isFmp4 := true, changedTimestampOffset := false, hasAbortRequests := true,
    audioInitDataAppended := false, videoInitDataAppended := false,
    segmentInfoInitDataApplied := false }

/-- A concrete loader state. -/
def sampleLoaderState : SegmentLoaderState :=
  { state := SLState.WAITING, loaderType_ := LoaderType.main,
    playlist_ := some samplePlaylist, pendingSegment_ := some sampleSegmentInfo,
    mediaIndex := some 3, syncPoint_ := none, isPendingTimestampOffset_ := false,
    callQueue_ := [10], loadQueue_ := [11], metadataQueueId3 := [12],
    metadataQueueCaption := [13], handlePartialData_ := false,
    currentMediaInfo_ := none, fetchAtBuffer_ := false,
    checkBufferTimeoutActive := true, currentTimeline_ := 0,
    audioDisabled_ := false, ended_ := false, appendInitSegmentAudio := true,
    appendInitSegmentVideo := true, playlistOfLastInitSegmentAudio := none,
    playlistOfLastInitSegmentVideo := none, activeInitSegmentId_ := none,
    initSegments_ := [] }

/-! ## Theorems -/

/-- C1: A secondary (audio) loader never commits a timestamp offset for a
timeline before the primary (main) loader has recorded a committed ('last')
transition to it: whenever the audio loader's current timeline differs from
its pending segment's timeline, `shouldWaitForTimelineChange` returns `true`
unless the main loader's last timeline change has `to` equal to that segment
timeline.  The statement is universal over all timelines, so it covers the
bootstrap transition `-1 → 0` identically to later ones. -/
theorem audio_loader_waits_for_main_commit
    (tcc : TimelineChangeController) (currentTimeline segmentTimeline : ℤ)
    (audioDisabled : Bool) (h : currentTimeline ≠ segmentTimeline) :
    shouldWaitForTimelineChange tcc currentTimeline segmentTimeline
        LoaderType.audio audioDisabled = true ↔
      ∀ lastChange, tcc.lastTimelineChange LoaderType.main = some lastChange →
        lastChange.toTl ≠ segmentTimeline := by
  simp only [shouldWaitForTimelineChange, TimelineChangeController.lastTimelineChange,
    if_neg h]
  cases htcc : tcc.lastMain with
  | none => simp
  | some lastChange => simp

/-- Witness for C1 at the bootstrap transition: current timeline `-1`,
segment timeline `0`, main's last change recorded as `-1 → 0`. -/
theorem audio_loader_waits_for_main_commit_witness :
    ((-1 : ℤ) ≠ 0) ∧
      (shouldWaitForTimelineChange
          ⟨some ⟨-1, 0⟩, none, none, none⟩ (-1) 0 LoaderType.audio false = true ↔
        ∀ lastChange,
          TimelineChangeController.lastTimelineChange
              ⟨some ⟨-1, 0⟩, none, none, none⟩ LoaderType.main = some lastChange →
            lastChange.toTl ≠ 0) :=
  ⟨by decide,
    audio_loader_waits_for_main_commit ⟨some ⟨-1, 0⟩, none, none, none⟩
      (-1) 0 false (by decide)⟩

/-- C6 (counterexample): the computed trim time can drop below the seekable
window start.  With seekable `[100, 200]`, current time `50` and target
duration `10`, the trim time is `40 < 100`. -/
theorem safeBackBufferTrimTime_below_seekable_start :
    safeBackBufferTrimTime [((100 : ℚ), 200)] 50 10 BACK_BUFFER_LENGTH = 40 ∧
      ((40 : ℚ) < 100) := by
  constructor
  · simp only [safeBackBufferTrimTime, BACK_BUFFER_LENGTH]
    norm_num
  · norm_num

/-- C6 (amended): the back-buffer trim time is always
`≤ currentTime − targetDuration`, and, when a seekable window exists, is
always `≥ min(seekable start, currentTime − targetDuration)` (in particular
it is `≥` the seekable start whenever the start is at least a target
duration behind the playhead). -/
theorem safeBackBufferTrimTime_bounds (seekable : List (ℚ × ℚ))
    (currentTime targetDuration backBufferLength : ℚ) :
    safeBackBufferTrimTime seekable currentTime targetDuration backBufferLength ≤
        currentTime - targetDuration ∧
      ∀ s e rest, seekable = (s, e) :: rest →
        min s (currentTime - targetDuration) ≤
          safeBackBufferTrimTime seekable currentTime targetDuration
            backBufferLength := by
  constructor
  · cases seekable with
    | nil => simp [safeBackBufferTrimTime]
    | cons r rest => simp [safeBackBufferTrimTime]
  · intro s e rest hseek
    subst hseek
    simp only [safeBackBufferTrimTime]
    refine le_min ?_ ?_
    · exact min_le_right _ _
    · exact le_trans (min_le_left _ _) (le_max_right _ _)

/-- Witness for C6 (amended) at seekable `[0, 60]`, current time `50`,
target duration `10`, back-buffer length `30`. -/
theorem safeBackBufferTrimTime_bounds_witness :
    safeBackBufferTrimTime [((0 : ℚ), (60 : ℚ))] 50 10 30 ≤ 50 - 10 ∧
      ∀ (s e : ℚ) (rest : List (ℚ × ℚ)),
        [((0 : ℚ), (60 : ℚ))] = (s, e) :: rest →
          min s ((50 : ℚ) - 10) ≤
            safeBackBufferTrimTime [((0 : ℚ), (60 : ℚ))] 50 10 30 :=
  safeBackBufferTrimTime_bounds [((0 : ℚ), (60 : ℚ))] 50 10 30

/-- C7 (counterexample): the claim's update formula divides by the elapsed
pipeline time `D`, but the code divides by `D + 1` (to avoid division by
zero).  For a segment of `8000` bytes whose pipeline took `D = 1` ms
(`now = 1`, `endOfAllRequests = 0`) starting from zero stats, the code
yields rate `32000000`, while the claim's formula
`rate + (floor(S/D·8000) − rate)/count` yields `64000000`. -/
theorem recordThroughput_divides_by_elapsed_plus_one :
    (recordThroughput_ ⟨0, 0⟩ 1 8000 0).rate = 32000000 ∧
      (0 : ℚ) + (((⌊((8000 : ℚ) / 1) * 8000⌋ : ℤ) : ℚ) - 0) / 1 = 64000000 ∧
      ((32000000 : ℚ) ≠ 64000000) := by
  refine ⟨?_, ?_, by norm_num⟩
  · simp only [recordThroughput_]
    norm_num
  · norm_num

/-- C7 (amended): after appending a completed segment of size `S` bytes whose
append pipeline took `D = now − endOfAllRequests` ms, the cumulative moving
average updates as `rate += (floor(S/(D+1)·8000) − rate)/count` — the divisor
is the elapsed time plus one (the code's division-by-zero guard) — and
`throughput.count` is incremented by exactly `1`. -/
theorem recordThroughput_update (throughput : Throughput) (now : ℚ)
    (byteLength : ℕ) (endOfAllRequests : ℚ) :
    (recordThroughput_ throughput now byteLength endOfAllRequests).count =
        throughput.count + 1 ∧
      (recordThroughput_ throughput now byteLength endOfAllRequests).rate =
        throughput.rate +
          (((⌊((byteLength : ℚ) / (now - endOfAllRequests + 1)) * 8000⌋ : ℤ) : ℚ) -
              throughput.rate) / ((throughput.count : ℚ) + 1) := by
  refine ⟨rfl, ?_⟩
  simp only [recordThroughput_]
  norm_num [mul_assoc]

/-- C9: calling `abort()` while the loader is `WAITING` resets the state to
`READY`, clears the pending segment request, drops the call/load/metadata
queues, clears this loader's pending timeline-change record, and cancels the
in-flight network operation (when one is attached). -/
theorem abort_in_waiting_resets (st : SegmentLoaderState)
    (h : st.state = SLState.WAITING) :
    (SegmentLoader.abort st).1.state = SLState.READY ∧
      (SegmentLoader.abort st).1.pendingSegment_ = none ∧
      (SegmentLoader.abort st).1.callQueue_ = [] ∧
      (SegmentLoader.abort st).1.loadQueue_ = [] ∧
      (SegmentLoader.abort st).1.metadataQueueId3 = [] ∧
      (SegmentLoader.abort st).1.metadataQueueCaption = [] ∧
      LoaderEffect.clearPendingTimelineChange st.loaderType_ ∈
        (SegmentLoader.abort st).2 ∧
      ∀ pendingSegment, st.pendingSegment_ = some pendingSegment →
        pendingSegment.hasAbortRequests = true →
          LoaderEffect.abortRequestsCall ∈ (SegmentLoader.abort st).2 := by
  simp only [SegmentLoader.abort, h, ne_eq, not_true_eq_false, if_false,
    SegmentLoader.abort_, SegmentLoader.paused, SegmentLoader.monitorBuffer_]
  cases hps : st.pendingSegment_ with
  | none =>
      by_cases hcb : st.checkBufferTimeoutActive <;>
        simp [hcb, hps]
  | some pendingSegment =>
      by_cases hab : pendingSegment.hasAbortRequests <;>
        by_cases hcb : st.checkBufferTimeoutActive <;>
          simp [hcb, hps, hab]

/-- Witness for C9 at `sampleLoaderState` (state `WAITING`, a pending segment
with an attached request, non-empty queues). -/
theorem abort_in_waiting_resets_witness :
    (SegmentLoader.abort sampleLoaderState).1.state = SLState.READY ∧
      (SegmentLoader.abort sampleLoaderState).1.pendingSegment_ = none ∧
      (SegmentLoader.abort sampleLoaderState).1.callQueue_ = [] ∧
      (SegmentLoader.abort sampleLoaderState).1.loadQueue_ = [] ∧
      (SegmentLoader.abort sampleLoaderState).1.metadataQueueId3 = [] ∧
      (SegmentLoader.abort sampleLoaderState).1.metadataQueueCaption = [] ∧
      LoaderEffect.clearPendingTimelineChange LoaderType.main ∈
        (SegmentLoader.abort sampleLoaderState).2 ∧
      LoaderEffect.abortRequestsCall ∈ (SegmentLoader.abort sampleLoaderState).2 := by
  obtain ⟨h1, h2, h3, h4, h5, h6, h7, h8⟩ :=
    abort_in_waiting_resets sampleLoaderState rfl
  exact ⟨h1, h2, h3, h4, h5, h6, h7, h8 sampleSegmentInfo rfl rfl⟩

/-- C5: when a playlist is refreshed with an unchanged identity (same `uri`),
the loader's local media index (when non-null) and any in-flight pending
request's media index shift by exactly the media-sequence delta
`newSequence − oldSequence` (indices decrease by the delta as the live
window slides), and expired-segment sync info is forwarded to the
synchronization controller. -/
theorem playlist_same_uri_refresh_rebases (st : SegmentLoaderState)
    (oldPlaylist newPlaylist : Playlist)
    (hold : st.playlist_ = some oldPlaylist)
    (huri : oldPlaylist.uri = newPlaylist.uri)
    (hstate : st.state ≠ SLState.INIT) :
    ((SegmentLoader.playlist st (some newPlaylist)).1.mediaIndex =
        st.mediaIndex.map
          (· - (newPlaylist.mediaSequence - oldPlaylist.mediaSequence))) ∧
      (∀ si, st.pendingSegment_ = some si → ∃ si',
          (SegmentLoader.playlist st (some newPlaylist)).1.pendingSegment_ =
              some si' ∧
            si'.mediaIndex =
              si.mediaIndex -
                (newPlaylist.mediaSequence - oldPlaylist.mediaSequence)) ∧
      LoaderEffect.saveExpiredSegmentInfo oldPlaylist newPlaylist ∈
        (SegmentLoader.playlist st (some newPlaylist)).2 := by
  have hni : ¬(st.state = SLState.INIT) := hstate
  simp only [SegmentLoader.playlist, hold, hni, if_false, false_and, ite_false,
    huri, ne_eq, not_true_eq_false]
  refine ⟨trivial, ?_, ?_⟩
  · intro si hsi
    rw [hsi]
    refine ⟨_, rfl, ?_⟩
    by_cases hix :
        (0 : ℤ) ≤ si.mediaIndex -
          (newPlaylist.mediaSequence - oldPlaylist.mediaSequence) <;>
      simp [hix]
  · simp

/-- Witness for C5: refreshing `samplePlaylist` (media sequence 5) to the
same-uri playlist with media sequence 7 shifts the local index 3 to 1 and
the in-flight index 1 to -1. -/
theorem playlist_same_uri_refresh_rebases_witness :
    (let st := { sampleLoaderState with state := SLState.READY }
     let newPlaylist := { samplePlaylist with mediaSequence := 7 }
     (SegmentLoader.playlist st (some newPlaylist)).1.mediaIndex =
        st.mediaIndex.map
          (· - (newPlaylist.mediaSequence - samplePlaylist.mediaSequence)) ∧
      (∀ si, st.pendingSegment_ = some si → ∃ si',
          (SegmentLoader.playlist st (some newPlaylist)).1.pendingSegment_ =
              some si' ∧
            si'.mediaIndex =
              si.mediaIndex -
                (newPlaylist.mediaSequence - samplePlaylist.mediaSequence)) ∧
      LoaderEffect.saveExpiredSegmentInfo samplePlaylist newPlaylist ∈
        (SegmentLoader.playlist st (some newPlaylist)).2) :=
  playlist_same_uri_refresh_rebases
    { sampleLoaderState with state := SLState.READY }
    samplePlaylist { samplePlaylist with mediaSequence := 7 }
    rfl rfl (by decide)

/-- C2 (code-bug evidence): with buffered lookahead `6` at or above a goal
buffer length of `6`, `checkBuffer_` still returns a segment (index 3): the
goal-buffer-length early return is commented out in the source
(`//return null; // BoZ: tmp`), contradicting both the spec and the
function's own comment.  Inputs as in the spec scenario: playlist with
segments `[0..4]`, target duration 6s, current time 10s, buffered `[0,16]`,
after playback has started. -/
theorem checkBuffer_full_buffer_still_returns_segment :
    max 0 ((16 : ℚ) - 10) ≥ (6 : ℚ) ∧
      (checkBuffer_
          { goalBufferLength := 6, currentTimeline_ := 0,
            fetchAtBuffer_ := false, mediaSourceReadyState := ReadyState.open,
            seeking := false, getMediaInfoForTime := fun _ _ _ _ => (0, 0) }
          [((0 : ℚ), 16)]
          { uri := 1, mediaSequence := 0, targetDuration := some 6,
            segments := List.replicate 5
              { timeline := 0, duration := 6, startTime := none,
                endTime := none, map := none },
            syncInfo := none }
          (some 2) true 10
          (some { segmentIndex := 0, time := 0 })).map
          (fun si => si.mediaIndex) = some 3 := by
  constructor
  · norm_num
  · decide

/-- C4 (code-bug evidence): during one chunked fetch delivering two complete
`mdat` boxes in two reads, `trackInfoFn` and `timingInfoFn` each fire twice —
once per chunk, not once per fetch: the
`if (!segmentTrackAndTimingInfoHandled)` guard around the emission is
commented out in the source, contradicting its own "Only do this once"
comment. -/
theorem trackInfo_emitted_on_every_chunk :
    trackInfoCount (runFetchSteps ⟨⟨true, false⟩⟩ false false initialFetchState
        [some [0, 0, 0, 9, 109, 100, 97, 116, 1],
          some [0, 0, 0, 9, 109, 100, 97, 116, 2]]).2 = 2 ∧
      timingInfoCount (runFetchSteps ⟨⟨true, false⟩⟩ false false initialFetchState
          [some [0, 0, 0, 9, 109, 100, 97, 116, 1],
            some [0, 0, 0, 9, 109, 100, 97, 116, 2]]).2 = 2 ∧
      (2 : ℕ) ≠ 1 := by
  decide

/-- C3 (counterexample): the concatenation of the emitted chunks is not the
bytes of the complete `mdat` boxes: a chunk is sliced from the start of the
buffered data to the end of the last complete `mdat` box, so it also carries
any preceding non-`mdat` boxes.  Delivering a `free` box followed by an
`mdat` box in one read emits all 17 bytes as one chunk, while the complete
`mdat` boxes account for only 9 of them. -/
theorem emitted_chunks_exceed_mdat_bytes :
    (emittedChunks (runFetchSteps ⟨⟨true, false⟩⟩ false false initialFetchState
        [some [0, 0, 0, 8, 102, 114, 101, 101,
          0, 0, 0, 9, 109, 100, 97, 116, 42]]).2).flatten =
      [0, 0, 0, 8, 102, 114, 101, 101, 0, 0, 0, 9, 109, 100, 97, 116, 42] ∧
      specMdatBytes
          [0, 0, 0, 8, 102, 114, 101, 101, 0, 0, 0, 9, 109, 100, 97, 116, 42] =
        [0, 0, 0, 9, 109, 100, 97, 116, 42] ∧
      ([0, 0, 0, 8, 102, 114, 101, 101, 0, 0, 0, 9, 109, 100, 97, 116, 42] :
          List ℕ) ≠
        [0, 0, 0, 9, 109, 100, 97, 116, 42] := by
  decide

/-- C8 (counterexample): the init-segment bytes are re-prefixed on the first
append of the *next* segment request even though neither the init-segment
identity, nor the playlist, nor the track set changed in between: the
`audioInitDataAppended`/`videoInitDataAppended` guards live on the
per-request `segmentInfo`, and `getInitSegmentAndUpdateState_` clears
`activeInitSegmentId_` whenever it hands out map-derived init bytes, so a
fresh request obtains and prefixes them again. -/
theorem initSegment_reprefixed_on_next_request :
    (let step1 := appendData_
        (updateAppendInitSegmentStatus sampleLoaderState sampleSegmentInfo
          MediaType.video)
        sampleSegmentInfo MediaType.video [9] none
     let step2 := appendData_ step1.1 step1.2.1 MediaType.video [10] none
     let step3 := appendData_
        (updateAppendInitSegmentStatus step2.1 sampleSegmentInfo
          MediaType.video)
        sampleSegmentInfo MediaType.video [11] none
     step1.2.2.map (fun c => c.initIncluded) = some true ∧
       step2.2.2.map (fun c => c.initIncluded) = some false ∧
       step3.2.2.map (fun c => c.initIncluded) = some true) := by
  decide

/-- Helper: one `appendToSourceBuffer_` call never prefixes init bytes when
the per-request guard flag is already set (and it preserves the flag), and
whenever it does prefix init bytes it sets the flag. -/
theorem appendToSourceBuffer_flag (segmentInfo : SegmentInfo) (type : MediaType)
    (initSegment : Option (List ℕ)) (data : List ℕ) :
    (initDataAppendedFlag type segmentInfo = true →
        (appendToSourceBuffer_ segmentInfo type initSegment data).2.initIncluded
            = false ∧
          initDataAppendedFlag type
              (appendToSourceBuffer_ segmentInfo type initSegment data).1 =
            true) ∧
      ((appendToSourceBuffer_ segmentInfo type initSegment data).2.initIncluded
          = true →
        initDataAppendedFlag type
            (appendToSourceBuffer_ segmentInfo type initSegment data).1 =
          true) := by
  cases initSegment with
  | none => cases type <;> simp [appendToSourceBuffer_, initDataAppendedFlag]
  | some initSegmentBytes =>
      cases type <;>
        by_cases ha : segmentInfo.audioInitDataAppended <;>
          by_cases hv : segmentInfo.videoInitDataAppended <;>
            simp [appendToSourceBuffer_, initDataAppendedFlag, ha, hv]

/-- Helper: once the per-request guard flag is set, no later append of that
track type for the same request includes init bytes. -/
theorem countInitAppends_of_flag_set (type : MediaType) :
    ∀ (appends : List (Option (List ℕ) × List ℕ)) (segmentInfo : SegmentInfo),
    initDataAppendedFlag type segmentInfo = true →
      countInitAppends type segmentInfo appends = 0 := by
  intro appends
  induction appends with
  | nil => intro segmentInfo _; rfl
  | cons hd tl ih =>
      intro segmentInfo hflag
      obtain ⟨hset, -⟩ := appendToSourceBuffer_flag segmentInfo type hd.1 hd.2
      obtain ⟨hinc, hkeep⟩ := hset hflag
      simp only [countInitAppends, hinc, if_false, Bool.false_eq_true,
        ite_false, Nat.zero_add]
      exact ih _ hkeep

/-- C8 (amended): initialization-section bytes are prefixed to at most one
sink append per track type within a single pending segment request — the
per-request `audioInitDataAppended`/`videoInitDataAppended` guards ensure a
second chunk append of the same request never re-sends them.  (Across
requests the bytes are re-sent on the first append of each new request,
regardless of identity or playlist/track changes — see the counterexample.) -/
theorem initSegment_prefixed_at_most_once_per_request (type : MediaType) :
    ∀ (appends : List (Option (List ℕ) × List ℕ)) (segmentInfo : SegmentInfo),
      countInitAppends type segmentInfo appends ≤ 1 := by
  intro appends
  induction appends with
  | nil => intro segmentInfo; exact Nat.zero_le 1
  | cons hd tl ih =>
      intro segmentInfo
      by_cases hinc :
          (appendToSourceBuffer_ segmentInfo type hd.1 hd.2).2.initIncluded = true
      · obtain ⟨-, hset⟩ := appendToSourceBuffer_flag segmentInfo type hd.1 hd.2
        simp only [countInitAppends, hinc, if_true, ite_true]
        rw [countInitAppends_of_flag_set type tl _ (hset hinc)]
      · simp only [countInitAppends, hinc, Bool.not_eq_true] at hinc ⊢
        simp only [hinc, Bool.false_eq_true, if_false, ite_false, Nat.zero_add]
        exact ih _

/-- Helper: the scanner loop's result is independent of the fuel bound once
the fuel covers the remaining bytes — each iteration either breaks or
advances the offset by at least one. -/
theorem scanLoop_fuel_stable (types : List BoxType) (data : List ℕ) :
    ∀ (fuelA fuelB offset lco : ℕ) (bi : Option (ℕ × ℕ)),
      data.length - offset ≤ fuelA → data.length - offset ≤ fuelB →
      scanLoop types data fuelA offset lco bi =
        scanLoop types data fuelB offset lco bi := by
  intro fuelA
  induction fuelA with
  | zero =>
      intro fuelB offset lco bi hA hB
      have hoff : ¬offset < data.length := by omega
      cases fuelB with
      | zero => rfl
      | succ fuelB => simp [scanLoop, hoff]
  | succ fuelA ih =>
      intro fuelB offset lco bi hA hB
      cases fuelB with
      | zero =>
          have hoff : ¬offset < data.length := by omega
          simp [scanLoop, hoff]
      | succ fuelB =>
          by_cases hoff : offset < data.length
          · simp only [scanLoop, if_pos hoff]
            by_cases hz : parseUint32 data offset = 0
            · simp only [hz, if_pos rfl, ite_true]
            · have hs : 1 ≤ parseUint32 data offset := Nat.one_le_iff_ne_zero.mpr hz
              have hA' : data.length - (offset + parseUint32 data offset) ≤ fuelA := by
                omega
              have hB' : data.length - (offset + parseUint32 data offset) ≤ fuelB := by
                omega
              simp only [hz, ite_false, if_false]
              by_cases hle : offset + parseUint32 data offset ≤ data.length
              · by_cases hmem : parseIsoBoxType data (offset + 4) ∈ types
                · simp only [hle, hmem, ite_true, if_pos]
                  exact ih fuelB _ _ _ hA' hB'
                · simp only [hle, hmem, ite_true, ite_false, if_pos, if_neg]
                  exact ih fuelB _ _ _ hA' hB'
              · simp only [hle, ite_false, if_neg]
                exact ih fuelB _ _ _ hA' hB'
          · simp [scanLoop, hoff]

/-- C10: the scanner loop of `findLastTopIsoBoxCompleted` terminates on every
input: a parsed box size of `0` ends the scan; a nonzero box size strictly
increases the scan offset (so the measure `data.length − offset` strictly
decreases); and consequently the loop stabilizes — any fuel bound of at
least `data.length − offset` iterations (in particular the `data.length`
used by `findLastTopIsoBoxCompleted`) yields the loop's result. -/
theorem scanner_loop_terminates (types : List BoxType) (data : List ℕ)
    (fuel offset lco : ℕ) (bi : Option (ℕ × ℕ))
    (hfuel : data.length - offset ≤ fuel) :
    scanLoop types data fuel offset lco bi =
        scanLoop types data (data.length - offset) offset lco bi ∧
      (offset < data.length → parseUint32 data offset = 0 →
        scanLoop types data fuel offset lco bi = (lco, bi)) ∧
      (offset < data.length → parseUint32 data offset ≠ 0 →
        data.length - (offset + parseUint32 data offset) <
          data.length - offset) := by
  refine ⟨scanLoop_fuel_stable types data fuel _ offset lco bi hfuel
    (Nat.le_refl _), ?_, ?_⟩
  · intro hoff hz
    cases fuel with
    | zero => omega
    | succ fuel => simp [scanLoop, hoff, hz]
  · intro hoff hz
    have hs : 1 ≤ parseUint32 data offset := Nat.one_le_iff_ne_zero.mpr hz
    omega

/-- Witness for C10 on a concrete 17-byte buffer (a `free` box followed by an
`mdat` box), with fuel 17 and starting offset 0. -/
theorem scanner_loop_terminates_witness :
    (scanLoop [mdatType]
          [0, 0, 0, 8, 102, 114, 101, 101, 0, 0, 0, 9, 109, 100, 97, 116, 42]
          17 0 0 none =
        scanLoop [mdatType]
          [0, 0, 0, 8, 102, 114, 101, 101, 0, 0, 0, 9, 109, 100, 97, 116, 42]
          (([0, 0, 0, 8, 102, 114, 101, 101, 0, 0, 0, 9, 109, 100, 97, 116,
              42] : List ℕ).length - 0) 0 0 none) ∧
      ((0 : ℕ) <
          ([0, 0, 0, 8, 102, 114, 101, 101, 0, 0, 0, 9, 109, 100, 97, 116,
            42] : List ℕ).length →
        parseUint32
            [0, 0, 0, 8, 102, 114, 101, 101, 0, 0, 0, 9, 109, 100, 97, 116, 42]
            0 = 0 →
        scanLoop [mdatType]
            [0, 0, 0, 8, 102, 114, 101, 101, 0, 0, 0, 9, 109, 100, 97, 116, 42]
            17 0 0 none = (0, none)) ∧
      ((0 : ℕ) <
          ([0, 0, 0, 8, 102, 114, 101, 101, 0, 0, 0, 9, 109, 100, 97, 116,
            42] : List ℕ).length →
        parseUint32
            [0, 0, 0, 8, 102, 114, 101, 101, 0, 0, 0, 9, 109, 100, 97, 116, 42]
            0 ≠ 0 →
        ([0, 0, 0, 8, 102, 114, 101, 101, 0, 0, 0, 9, 109, 100, 97, 116,
            42] : List ℕ).length -
            (0 + parseUint32
              [0, 0, 0, 8, 102, 114, 101, 101, 0, 0, 0, 9, 109, 100, 97, 116,
                42] 0) <
          ([0, 0, 0, 8, 102, 114, 101, 101, 0, 0, 0, 9, 109, 100, 97, 116,
            42] : List ℕ).length - 0) :=
  scanner_loop_terminates [mdatType]
    [0, 0, 0, 8, 102, 114, 101, 101, 0, 0, 0, 9, 109, 100, 97, 116, 42]
    17 0 0 none (by decide)

/-- Helper: `getD` on a dropped list reads the source at the shifted index. -/
theorem getD_drop (l : List ℕ) (n i : ℕ) :
    (l.drop n).getD i 0 = l.getD (n + i) 0 := by
  simp [List.getD_eq_getElem?_getD, List.getElem?_drop]

/-- Helper: `parseUint32` on a dropped list reads at the shifted offset. -/
theorem parseUint32_drop (l : List ℕ) (n o : ℕ) :
    parseUint32 (l.drop n) o = parseUint32 l (n + o) := by
  simp [parseUint32, getD_drop, Nat.add_assoc]

/-- Helper: `parseIsoBoxType` on a dropped list reads at the shifted offset. -/
theorem parseIsoBoxType_drop (l : List ℕ) (n o : ℕ) :
    parseIsoBoxType (l.drop n) o = parseIsoBoxType l (n + o) := by
  simp [parseIsoBoxType, getD_drop, Nat.add_assoc]

/-- Helper: a `getD` value different from the default is an in-range read. -/
theorem getD_ne_default_lt (l : List ℕ) (i v : ℕ) (h : l.getD i 0 = v)
    (hv : v ≠ 0) : i < l.length := by
  by_contra hc
  push_neg at hc
  rw [List.getD_eq_default _ _ hc] at h
  exact hv h.symm

/-- Helper: `parseUint32` only depends on the first list when all four bytes
lie inside it. -/
theorem parseUint32_append (l t : List ℕ) (o : ℕ) (h : o + 4 ≤ l.length) :
    parseUint32 (l ++ t) o = parseUint32 l o := by
  unfold parseUint32
  rw [List.getD_append _ _ _ _ (by omega), List.getD_append _ _ _ _ (by omega),
    List.getD_append _ _ _ _ (by omega), List.getD_append _ _ _ _ (by omega)]

/-- Helper: `parseIsoBoxType` only depends on the first list when all four
bytes lie inside it. -/
theorem parseIsoBoxType_append (l t : List ℕ) (o : ℕ) (h : o + 4 ≤ l.length) :
    parseIsoBoxType (l ++ t) o = parseIsoBoxType l o := by
  unfold parseIsoBoxType
  rw [List.getD_append _ _ _ _ (by omega), List.getD_append _ _ _ _ (by omega),
    List.getD_append _ _ _ _ (by omega), List.getD_append _ _ _ _ (by omega)]

/-- Helper: an `mdat` type match forces all four type bytes in range. -/
theorem parseIsoBoxType_mdat_range (l : List ℕ) (o : ℕ)
    (h : parseIsoBoxType l o = mdatType) : o + 4 ≤ l.length := by
  have h4 : l.getD (o + 3) 0 = 116 := congrArg (fun p => p.2.2.2) h
  have := getD_ne_default_lt l (o + 3) 116 h4 (by omega)
  omega

/-- Helper: a complete `mdat` box is preserved by appending bytes on the
right. -/
theorem isCompleteMdatBoxAt_append (l t : List ℕ) (o s : ℕ)
    (h : isCompleteMdatBoxAt l o s) : isCompleteMdatBoxAt (l ++ t) o s := by
  obtain ⟨hp, ht, hb, hs⟩ := h
  have hr : o + 4 + 4 ≤ l.length := parseIsoBoxType_mdat_range l (o + 4) ht
  refine ⟨?_, ?_, ?_, hs⟩
  · rw [parseUint32_append l t o (by omega)]; exact hp
  · rw [parseIsoBoxType_append l t (o + 4) (by omega)]; exact ht
  · simp only [List.length_append]; omega

/-- Helper: a complete `mdat` box found in a dropped suffix is a complete
`mdat` box of the whole list at the shifted offset. -/
theorem isCompleteMdatBoxAt_of_drop (l : List ℕ) (B o s : ℕ)
    (h : isCompleteMdatBoxAt (l.drop B) o s) (hB : B ≤ l.length) :
    isCompleteMdatBoxAt l (B + o) s := by
  obtain ⟨hp, ht, hb, hs⟩ := h
  refine ⟨?_, ?_, ?_, hs⟩
  · rw [← parseUint32_drop l B o]; exact hp
  · have : parseIsoBoxType l (B + (o + 4)) = mdatType := by
      rw [← parseIsoBoxType_drop l B (o + 4)]; exact ht
    have harith : B + (o + 4) = B + o + 4 := by omega
    rwa [harith] at this
  · have := List.length_drop B l ▸ hb
    omega

/-- Helper: postcondition of the scanner loop — a reported `boxInfo` is a
complete box of an interesting type inside the buffer (provided the incoming
accumulator already satisfies this, as `none` trivially does). -/
theorem scanLoop_found_spec (types : List BoxType) (data : List ℕ) :
    ∀ (fuel offset lco : ℕ) (bi : Option (ℕ × ℕ)) (o s : ℕ),
      (∀ o' s', bi = some (o', s') →
        parseUint32 data o' = s' ∧ parseIsoBoxType data (o' + 4) ∈ types ∧
          o' + s' ≤ data.length ∧ s' ≠ 0) →
      (scanLoop types data fuel offset lco bi).2 = some (o, s) →
      parseUint32 data o = s ∧ parseIsoBoxType data (o + 4) ∈ types ∧
        o + s ≤ data.length ∧ s ≠ 0 := by
  intro fuel
  induction fuel with
  | zero =>
      intro offset lco bi o s hinv hres
      exact hinv o s hres
  | succ fuel ih =>
      intro offset lco bi o s hinv hres
      by_cases hoff : offset < data.length
      · simp only [scanLoop, if_pos hoff] at hres
        by_cases hz : parseUint32 data offset = 0
        · simp only [hz, ite_true, if_pos rfl] at hres
          exact hinv o s hres
        · simp only [hz, ite_false, if_false] at hres
          by_cases hle : offset + parseUint32 data offset ≤ data.length
          · by_cases hmem : parseIsoBoxType data (offset + 4) ∈ types
            · simp only [hle, hmem, ite_true, if_pos] at hres
              refine ih _ _ _ _ _ ?_ hres
              intro o' s' hbi
              obtain ⟨rfl, rfl⟩ : o' = offset ∧ s' = parseUint32 data offset := by
                cases hbi; exact ⟨rfl, rfl⟩
              exact ⟨rfl, hmem, hle, hz⟩
            · simp only [hle, hmem, ite_true, ite_false, if_pos, if_neg] at hres
              exact ih _ _ _ _ _ hinv hres
          · simp only [hle, ite_false, if_neg] at hres
            exact ih _ _ _ _ _ hinv hres
      · simp only [scanLoop, if_neg hoff] at hres
        exact hinv o s hres

/-- Helper: postcondition of `findLastTopIsoBoxCompleted` — a `found` result
names a complete box of an interesting type. -/
theorem findLastTopIsoBoxCompleted_found_spec (types : List BoxType)
    (buffer : List ℕ) (offset lco s : ℕ)
    (h : findLastTopIsoBoxCompleted types buffer offset = ⟨lco, true, s⟩) :
    parseUint32 buffer lco = s ∧ parseIsoBoxType buffer (lco + 4) ∈ types ∧
      lco + s ≤ buffer.length ∧ s ≠ 0 := by
  unfold findLastTopIsoBoxCompleted at h
  by_cases hguard : offset + 8 ≥ buffer.length
  · simp only [hguard, ite_true, if_pos] at h
    cases h
  · simp only [hguard, ite_false, if_neg] at h
    rcases hscan : scanLoop types buffer buffer.length offset 0 none with ⟨lco', bi⟩
    cases bi with
    | none => rw [hscan] at h; cases h
    | some box =>
        rcases box with ⟨o', s'⟩
        rw [hscan] at h
        have h1 : lco = o' := by cases h; rfl
        have h2 : s = s' := by cases h; rfl
        rw [h1, h2]
        refine scanLoop_found_spec types buffer buffer.length offset 0 none o' s'
          (fun o0 s0 hbi => by cases hbi) ?_
        rw [hscan]

/-- Helper: `concatTypedArray` is list append. -/
theorem concatTypedArray_eq_append (remaining data : List ℕ) :
    concatTypedArray remaining data = remaining ++ data := by
  unfold concatTypedArray
  by_cases h : remaining.length = 0
  · rw [if_pos h, List.length_eq_zero.mp h]
    rfl
  · rw [if_neg h]

/-- Helper: `emittedChunks` distributes over event concatenation. -/
theorem emittedChunks_append (a b : List FetchEvent) :
    emittedChunks (a ++ b) = emittedChunks a ++ emittedChunks b := by
  simp [emittedChunks, List.filterMap_append]

/-- Helper: the end-of-stream flush emits no chunk. -/
theorem emittedChunks_done (handled : Bool) (segment : FetchSegment)
    (bytes : List ℕ) (needInit initRcvd fcr fcf : Bool) :
    emittedChunks (handleMediaDataResponse handled segment bytes true needInit
      initRcvd fcr fcf).2 = [] := by
  cases needInit <;> cases initRcvd <;> cases fcr <;> cases handled <;>
    simp [handleMediaDataResponse, waitForCompletion, handleSegmentBytes,
      emittedChunks]

/-- Helper: a completed-box slice is emitted as exactly one chunk when the
init gate is open. -/
theorem emittedChunks_chunk (handled : Bool) (segment : FetchSegment)
    (bytes : List ℕ) (needInit initRcvd fcf : Bool)
    (hgate : needInit = false ∨ initRcvd = true) (hbytes : bytes ≠ []) :
    emittedChunks (handleMediaDataResponse handled segment bytes false needInit
      initRcvd true fcf).2 = [bytes] := by
  have hlen : bytes.length ≠ 0 := fun hc => hbytes (List.length_eq_zero.mp hc)
  rcases segment with ⟨⟨ha, hv⟩⟩
  cases needInit <;> cases initRcvd <;> cases ha <;> cases hv <;>
    simp_all [handleMediaDataResponse, waitForCompletion, handleSegmentBytes,
      emittedChunks]

/-- Helper: the transport invariant.  Running the reader loop from a state
whose buffered remainder is the suffix of `pre` past position `B` (with the
positions already emitted amounting to `B` bytes):
all bytes ever received are exactly the emitted chunks followed by the final
remainder, and every emitted chunk ends at the end of a complete `mdat` box
of the total stream. -/
theorem runFetchSteps_spec (segment : FetchSegment) (needInit initRcvd : Bool)
    (hgate : needInit = false ∨ initRcvd = true) :
    ∀ (reads : List (Option (List ℕ))) (st : FetchState) (pre : List ℕ) (B : ℕ),
      st.remaining = pre.drop B → B ≤ pre.length →
      ((emittedChunks (runFetchSteps segment needInit initRcvd st reads).2).flatten ++
          (runFetchSteps segment needInit initRcvd st reads).1.remaining =
        pre.drop B ++ (reads.filterMap id).flatten) ∧
      chunksEndAtMdat (pre ++ (reads.filterMap id).flatten) B
        (emittedChunks (runFetchSteps segment needInit initRcvd st reads).2) := by
  intro reads
  induction reads with
  | nil =>
      intro st pre B hrem hB
      simp [runFetchSteps, emittedChunks, chunksEndAtMdat, hrem]
  | cons read rest ih =>
      intro st pre B hrem hB
      cases read with
      | none =>
          obtain ⟨ih1, ih2⟩ := ih
            { st with
              segmentDone := true,
              handled := (handleMediaDataResponse st.handled segment st.remaining
                true needInit initRcvd st.firstChunkReceived st.firstChunkFlag).1 }
            pre B hrem hB
          simp only [runFetchSteps, processMediaSegmentData, emittedChunks_append,
            emittedChunks_done, List.nil_append, List.filterMap_cons_none,
            id_eq]
          exact ⟨ih1, ih2⟩
      | some v =>
          by_cases hv : v.length > 0
          · have hR : concatTypedArray st.remaining v = (pre ++ v).drop B := by
              rw [concatTypedArray_eq_append, hrem,
                List.drop_append_of_le_length hB]
            have hBv : B ≤ (pre ++ v).length := by
              simp only [List.length_append]; omega
            rcases hfind : findLastTopIsoBoxCompleted [mdatType]
              (concatTypedArray st.remaining v) st.offset with ⟨lco, found, s⟩
            cases found with
            | false =>
                obtain ⟨ih1, ih2⟩ := ih
                  { st with
                    remaining := concatTypedArray st.remaining v,
                    offset := lco }
                  (pre ++ v) B hR hBv
                have hfm : (some v :: rest).filterMap id =
                    v :: rest.filterMap id := rfl
                rw [List.drop_append_of_le_length hB] at ih1
                simp only [runFetchSteps, processMediaSegmentData, if_pos hv,
                  hfind, Bool.false_eq_true, if_false, ite_false,
                  List.nil_append, hfm, List.flatten_cons]
                constructor
                · rw [← List.append_assoc]
                  exact ih1
                · rw [← List.append_assoc]
                  exact ih2
            | true =>
                obtain ⟨hsz, htypmem, hbound, hs0⟩ :=
                  findLastTopIsoBoxCompleted_found_spec [mdatType]
                    (concatTypedArray st.remaining v) st.offset lco s hfind
                have htyp : parseIsoBoxType (concatTypedArray st.remaining v)
                    (lco + 4) = mdatType := by
                  simpa using htypmem
                have hdatalen :
                    ((concatTypedArray st.remaining v).take (lco + s)).length =
                      lco + s := by
                  rw [List.length_take]
                  omega
                have hdata_ne :
                    (concatTypedArray st.remaining v).take (lco + s) ≠ [] := by
                  intro hc
                  have := congrArg List.length hc
                  rw [hdatalen] at this
                  simp at this
                  omega
                have hchunk := emittedChunks_chunk st.handled segment
                  ((concatTypedArray st.remaining v).take (lco + s)) needInit
                  initRcvd (!st.firstChunkReceived) hgate hdata_ne
                have hrem' :
                    (concatTypedArray st.remaining v).drop (lco + s) =
                      (pre ++ v).drop (B + (lco + s)) := by
                  rw [hR, List.drop_drop]
                have hlenR : (concatTypedArray st.remaining v).length =
                    (pre ++ v).length - B := by
                  rw [hR, List.length_drop]
                have hB' : B + (lco + s) ≤ (pre ++ v).length := by
                  omega
                obtain ⟨ih1, ih2⟩ := ih
                  { remaining := (concatTypedArray st.remaining v).drop (lco + s),
                    offset := 0, firstChunkReceived := true,
                    firstChunkFlag := !st.firstChunkReceived,
                    segmentDone := false,
                    handled := (handleMediaDataResponse st.handled segment
                      ((concatTypedArray st.remaining v).take (lco + s)) false
                      needInit initRcvd true (!st.firstChunkReceived)).1 }
                  (pre ++ v) (B + (lco + s)) hrem' hB'
                have hbox : isCompleteMdatBoxAt
                    ((pre ++ v) ++ (rest.filterMap id).flatten) (B + lco) s := by
                  apply isCompleteMdatBoxAt_append
                  refine isCompleteMdatBoxAt_of_drop (pre ++ v) B lco s ?_ hBv
                  rw [← hR]
                  exact ⟨hsz, htyp, hbound, hs0⟩
                have hfm : (some v :: rest).filterMap id =
                    v :: rest.filterMap id := rfl
                simp only [runFetchSteps, processMediaSegmentData, if_pos hv,
                  hfind, if_pos rfl, ite_true, emittedChunks_append, hchunk,
                  List.singleton_append, hfm, List.flatten_cons]
                constructor
                · rw [List.append_assoc, ih1, ← hrem', ← List.append_assoc,
                    List.take_append_drop, hR,
                    List.drop_append_of_le_length hB, List.append_assoc]
                · rw [← List.append_assoc]
                  refine ⟨⟨B + lco, s, hbox, by rw [hdatalen]; omega, by omega⟩, ?_⟩
                  rw [hdatalen]
                  exact ih2
          · have hv0 : v = [] := by
              rcases v with _ | ⟨a, v'⟩
              · rfl
              · simp at hv
            subst hv0
            obtain ⟨ih1, ih2⟩ := ih st pre B hrem hB
            simp only [runFetchSteps, processMediaSegmentData, gt_iff_lt,
              List.length_nil, Nat.lt_irrefl, if_false, ite_false,
              List.filterMap_cons_some, id_eq, List.flatten_cons,
              List.nil_append, emittedChunks_append, emittedChunks,
              List.filterMap_nil]
            exact ⟨ih1, ih2⟩

/-- C3 (amended): for any segment byte stream delivered in arbitrary network
splits (with no separate initialization fetch gating emission: either none is
needed or it has been received), concatenating the chunks emitted by the
chunked fragment transport reconstructs exactly the delivered byte stream up
to the end of the last complete media-data (`mdat`) box — every delivered
byte up to that boundary appears exactly once and in order (the final
unconsumed remainder accounts for the rest), each emitted chunk ends exactly
at the end boundary of a complete `mdat` box (so it carries any non-`mdat`
boxes preceding it), and a partially received trailing box is never emitted
as part of any chunk. -/
theorem transport_chunks_reconstruct_stream (segment : FetchSegment)
    (needInit initRcvd : Bool) (hgate : needInit = false ∨ initRcvd = true)
    (reads : List (Option (List ℕ))) :
    ((emittedChunks (runFetchSteps segment needInit initRcvd initialFetchState
          reads).2).flatten ++
        (runFetchSteps segment needInit initRcvd initialFetchState
          reads).1.remaining =
      deliveredBytes reads) ∧
      chunksEndAtMdat (deliveredBytes reads) 0
        (emittedChunks (runFetchSteps segment needInit initRcvd
          initialFetchState reads).2) := by
  have h := runFetchSteps_spec segment needInit initRcvd hgate reads
    initialFetchState [] 0 rfl (Nat.le_refl 0)
  simpa [deliveredBytes] using h

/-- Witness for C3 (amended): a single read delivering a `free` box followed
by an `mdat` box, with no init section needed. -/
theorem transport_chunks_reconstruct_stream_witness :
    ((emittedChunks (runFetchSteps ⟨⟨true, false⟩⟩ false false initialFetchState
          [some [0, 0, 0, 8, 102, 114, 101, 101,
            0, 0, 0, 9, 109, 100, 97, 116, 42]]).2).flatten ++
        (runFetchSteps ⟨⟨true, false⟩⟩ false false initialFetchState
          [some [0, 0, 0, 8, 102, 114, 101, 101,
            0, 0, 0, 9, 109, 100, 97, 116, 42]]).1.remaining =
      deliveredBytes [some [0, 0, 0, 8, 102, 114, 101, 101,
        0, 0, 0, 9, 109, 100, 97, 116, 42]]) ∧
      chunksEndAtMdat (deliveredBytes [some [0, 0, 0, 8, 102, 114, 101, 101,
          0, 0, 0, 9, 109, 100, 97, 116, 42]]) 0
        (emittedChunks (runFetchSteps ⟨⟨true, false⟩⟩ false false
          initialFetchState [some [0, 0, 0, 8, 102, 114, 101, 101,
            0, 0, 0, 9, 109, 100, 97, 116, 42]]).2) :=
  transport_chunks_reconstruct_stream ⟨⟨true, false⟩⟩ false false (Or.inl rfl)
    [some [0, 0, 0, 8, 102, 114, 101, 101, 0, 0, 0, 9, 109, 100, 97, 116, 42]]

end LLDash
